import Mathlib

/-!
# Verification of the YouTube-RAG pipeline core

Shallow embedding, in Lean 4, of the pipeline logic of the repository
`youtube-rag-app` (files `src/vector_store.py` and `src/query_engine.py`),
together with theorems settling the frozen claims about it.

Python strings are modelled as `List Char`; Python `None` as `Option.none`;
Python exceptions of library calls are modelled as `Except` values supplied
by oracles (the code under test only branches on them).  External services
(transcript source, embedding endpoint, generation endpoint) are modelled as
oracle parameters, following the repository's own treatment of them as black
boxes.
-/

namespace YoutubeRag

/-! ## 1. Python string helpers

These model the exact `str` operations used by `vector_store.py` via
`urllib.parse`: `str.split(sep)`, `str.split(sep, 1)`, `str.lower`,
`str.startswith`, percent decoding, and the `'+'`-to-space replacement of
`parse_qsl`. -/

/-- Model of Python `s.split(sep, 1)`: the part before the first occurrence of
`sep`, and — when `sep` occurs — the part after it. -/
def splitFirst (sep : Char) : List Char → List Char × Option (List Char)
  | [] => ([], none)
  | c :: rest =>
    if c = sep then ([], some rest)
    else
      let r := splitFirst sep rest
      (c :: r.1, r.2)

/-- Model of Python `s.split(sep)` (always a non-empty list of groups;
`"".split(sep) == ['']`). -/
def pySplit (sep : Char) : List Char → List (List Char)
  | [] => [[]]
  | c :: rest =>
    if c = sep then [] :: pySplit sep rest
    else
      match pySplit sep rest with
      | [] => [[c]]
      | g :: gs => (c :: g) :: gs

/-- Model of Python `groups[-1]` for the (never empty) result of `split`. -/
def lastSegment (groups : List (List Char)) : List Char := groups.getLastD []

/-- Model of Python `s.startswith(t)` (here: first argument is the candidate
prefix `t`). -/
def listStartsWith : List Char → List Char → Bool
  | [], _ => true
  | _ :: _, [] => false
  | x :: xs, y :: ys => (x == y) && listStartsWith xs ys

/-! ## 2. Model of `urllib.parse.urlparse` / `parse_qs`

`extract_video_id` delegates URL parsing to CPython's `urllib.parse`.  That
library code is not part of the repository; the definitions below embed its
documented behaviour (CPython 3.11 `urlsplit`, `urlparse`, `parse_qs` with
default arguments).  Known deviations, none of which affect the claims
settled here:
* `str.lower` is modelled ASCII-only (`Char.toLower`); CPython also lowers
  non-ASCII letters;
* validation of a bracketed (IPv6) host inside the netloc is modelled only as
  the bracket-matching check (`ValueError` on a `[` without `]` or vice
  versa); CPython additionally validates the address inside the brackets;
* percent decoding is modelled byte by byte; CPython additionally re-combines
  multi-byte UTF-8 escape sequences (this changes only decoded non-ASCII
  characters, never whether a `v` key or a non-empty value exists);
* `_checknetloc` (a `ValueError` for non-ASCII netlocs whose NFKC
  normalisation contains a separator) is not modelled: it fires only on
  non-ASCII netlocs.
The model was validated differentially against CPython 3.11 on several
hundred URLs covering all branches. -/

/-- CPython `urlsplit` first `lstrip`s WHATWG C0-control-or-space characters
(code points ≤ 0x20) from the left of the URL. -/
def stripControlLeft (s : List Char) : List Char :=
  s.dropWhile (fun c => c.toNat ≤ 32)

/-- CPython `urlsplit` removes every tab, carriage return and line feed
(`_UNSAFE_URL_BYTES_TO_REMOVE`). -/
def removeUnsafeChars (s : List Char) : List Char :=
  s.filter (fun c => !(c == '\t' || c == '\r' || c == '\n'))

/-- The URL preprocessing CPython `urlsplit` performs before parsing. -/
def preprocessUrl (s : List Char) : List Char :=
  removeUnsafeChars (stripControlLeft s)

/-- CPython `scheme_chars`: letters, digits, `+`, `-`, `.`. -/
def isSchemeChar (c : Char) : Bool :=
  c.isAlphanum || c == '+' || c == '-' || c == '.'

/-- Scheme recognition of `urlsplit`: a `:` at position `i > 0` with an
ASCII-alphabetic first character and only scheme characters before it splits
off a lower-cased scheme; otherwise the URL is left whole. -/
def splitScheme (s : List Char) : List Char × List Char :=
  match splitFirst ':' s with
  | (before, some after) =>
    if before ≠ [] ∧ (before.headD ' ').isAlpha = true ∧ before.all isSchemeChar = true
    then (before.map Char.toLower, after)
    else ([], s)
  | (_, none) => ([], s)

/-- A character that does not end the netloc (`_splitnetloc` scans up to the
first of `/`, `?`, `#`). -/
def isNetlocChar (c : Char) : Bool :=
  !(c == '/' || c == '?' || c == '#')

/-- Netloc recognition of `urlsplit`: only after a leading `//`; mismatched
square brackets raise `ValueError` (modelled as `Except.error`). -/
def splitNetloc (s : List Char) : Except Unit (List Char × List Char) :=
  match s with
  | a :: b :: rest =>
    if a = '/' ∧ b = '/' then
      let netloc := rest.takeWhile isNetlocChar
      if (netloc.contains '[' : Bool) ≠ (netloc.contains ']' : Bool) then .error ()
      else .ok (netloc, rest.dropWhile isNetlocChar)
    else .ok ([], s)
  | _ => .ok ([], s)

/-- `url.split(sep, 1)` used for the `#` and `?` splits of `urlsplit`; when
`sep` is absent the second component is the empty string. -/
def splitOffAt (sep : Char) (s : List Char) : List Char × List Char :=
  match splitFirst sep s with
  | (before, some after) => (before, after)
  | (before, none) => (before, [])

/-- Drop everything from the first `;` of a path segment (identity when there
is no `;`). -/
def cutSemiColon (seg : List Char) : List Char := (splitFirst ';' seg).1

/-- CPython `urlparse._splitparams`: parameters are split off the *last* path
segment at its first `;`. -/
def splitParams (path : List Char) : List Char :=
  if path.contains '/' then
    let seg := (path.reverse.takeWhile (fun c => c ≠ '/')).reverse
    path.take (path.length - seg.length) ++ cutSemiColon seg
  else cutSemiColon path

/-- The fields of a CPython `ParseResult` used by `extract_video_id`. -/
structure UrlParts where
  scheme : List Char
  netloc : List Char
  path : List Char
  query : List Char
  fragment : List Char
deriving Repr, DecidableEq

/-- Model of CPython `urllib.parse.urlparse` (with `allow_fragments=True`):
preprocess, split scheme, split netloc (which may raise), split fragment at
the first `#`, split query at the first `?`, split path parameters. -/
def urlparseE (url : List Char) : Except Unit UrlParts :=
  let u := preprocessUrl url
  let sr := splitScheme u
  match splitNetloc sr.2 with
  | .error _ => .error ()
  | .ok (netloc, rest2) =>
    let fr := splitOffAt '#' rest2
    let qr := splitOffAt '?' fr.1
    .ok { scheme := sr.1, netloc := netloc, path := splitParams qr.1,
          query := qr.2, fragment := fr.2 }

/-- `parse_qsl` replaces `+` by a space before percent decoding. -/
def plusToSpace (l : List Char) : List Char :=
  l.map (fun c => if c = '+' then ' ' else c)

/-- Value of a hexadecimal digit. -/
def hexDigitVal (c : Char) : Option Nat :=
  if '0' ≤ c ∧ c ≤ '9' then some (c.toNat - 48)
  else if 'a' ≤ c ∧ c ≤ 'f' then some (c.toNat - 87)
  else if 'A' ≤ c ∧ c ≤ 'F' then some (c.toNat - 55)
  else none

/-- Model of `urllib.parse.unquote`: a `%` followed by two hexadecimal digits
decodes to that byte; an invalid escape stays literal.  (Byte-level model:
multi-byte UTF-8 recombination is not performed, see the section comment.) -/
def pctDecode : List Char → List Char
  | [] => []
  | c :: rest =>
    if c = '%' then
      match rest with
      | a :: b :: rest2 =>
        match hexDigitVal a, hexDigitVal b with
        | some x, some y => Char.ofNat (16 * x + y) :: pctDecode rest2
        | _, _ => '%' :: pctDecode (a :: b :: rest2)
      | [] => ['%']
      | [a] => '%' :: pctDecode [a]
    else c :: pctDecode rest

/-- The decoding `parse_qsl` applies to each name and value. -/
def decodeComponent (l : List Char) : List Char := pctDecode (plusToSpace l)

/-- Model of `parse_qsl(qs)` with default arguments: split on `&`, skip empty
pairs, skip pairs without `=`, skip pairs whose raw value is empty
(`keep_blank_values=False`), decode names and values. -/
def qsPairs (q : List Char) : List (List Char × List Char) :=
  (pySplit '&' q).filterMap (fun nv =>
    if nv.isEmpty then none
    else
      match splitFirst '=' nv with
      | (_, none) => none
      | (name, some value) =>
        if value.isEmpty then none
        else some (decodeComponent name, decodeComponent value))

/-- Model of `parse_qs(q).get('v')` followed by taking element `[0]`: the
first value whose decoded name is `v` (the dictionary keeps values of each
key in order of appearance). -/
def getV (q : List Char) : Option (List Char) :=
  match (qsPairs q).filter (fun p => p.1 == ['v']) with
  | [] => none
  | p :: _ => some p.2

/-! ## 3. `VectorStoreManager.extract_video_id` (src/vector_store.py, lines 55-90) -/

/-- Embedding of `VectorStoreManager.extract_video_id`.  The `try/except`
wrapper of the source converts any exception (here: only the `ValueError` of
`urlparse`) into `None`.  Branch order follows the source exactly:
`youtu.be` netloc, `/shorts` path, non-empty query with a `v` parameter,
bare 11-character token, else `None`. -/
def extract_video_id (url : List Char) : Option (List Char) :=
  match urlparseE url with
  | .error _ => none
  | .ok p =>
    if p.netloc.map Char.toLower = "youtu.be".data then
      some (lastSegment (pySplit '/' p.path))
    else if listStartsWith "/shorts".data (p.path.map Char.toLower) then
      some (lastSegment (pySplit '/' p.path))
    else
      match (if p.query.isEmpty then none else getV p.query) with
      | some v => some v
      | none =>
        if url.length = 11 ∧ url.contains '/' = false then some url else none

/-! ## 4. `VectorStoreManager.fetch_transcript` (src/vector_store.py, lines 92-156)

The transcript source (`youtube_transcript_api`) is an external service; its
behaviour at the two call sites (`ytt_api.fetch(...)` and
`ytt_api.list(...)` with the subsequent translate-and-fetch) is an oracle
parameter of the embedding.  The function under test only branches on these
outcomes. -/

/-- One available transcript as enumerated by `ytt_api.list(video_id)`:
the attributes read by `fetch_transcript`, plus the outcome of
`.translate('en').fetch()` (which may itself raise). -/
structure TranscriptInfo where
  language : String
  language_code : String
  is_generated : Bool
  is_translatable : Bool
  translatedFetch : Except String (List String)

/-- Outcome of the primary `ytt_api.fetch(video_id, languages=[...])` call:
a fetched transcript (list of snippet texts plus metadata), or one of the
exceptions the source distinguishes. -/
inductive FetchOutcome where
  | fetched (snippets : List String) (language : String) (is_generated : Bool)
  | transcriptsDisabled
  | noTranscriptFound
  | otherError (msg : String)

/-- Outcome of `ytt_api.list(video_id)` (reached only on
`NoTranscriptFound`): the list of available transcripts, or an exception
(this also stands for an exception raised anywhere inside the inner `try`,
e.g. by the `.transcripts` attribute access or by the translated fetch). -/
inductive ListOutcome where
  | ok (transcripts : List TranscriptInfo)
  | raises (msg : String)

/-- The 4-tuple `(transcript_text, language, is_generated, error_message)`
returned by `fetch_transcript`. -/
structure FetchResult where
  text : Option String
  language : Option String
  is_generated : Option Bool
  error : Option String
deriving Repr, DecidableEq

/-- Embedding of `VectorStoreManager.fetch_transcript`.  Snippet texts are
joined with a single space (`" ".join(...)`).  On `TranscriptsDisabled` and
on the translation fallback the source returns the literal error strings
reproduced here. -/
def fetch_transcript (primary : FetchOutcome) (listing : ListOutcome) : FetchResult :=
  match primary with
  | .fetched snippets lang gen =>
    ⟨some (String.intercalate " " snippets), some lang, some gen, none⟩
  | .transcriptsDisabled =>
    ⟨none, none, none, some "Transcripts are disabled for this video"⟩
  | .otherError m => ⟨none, none, none, some ("Error: " ++ m)⟩
  | .noTranscriptFound =>
    match listing with
    | .raises m => ⟨none, none, none, some ("No transcript available: " ++ m)⟩
    | .ok transcripts =>
      match transcripts with
      | [] =>
        ⟨none, none, none,
         some "No Hindi or English transcript found, and translation not available"⟩
      | first :: _ =>
        if first.is_translatable then
          match first.translatedFetch with
          | .ok snippets =>
            ⟨some (String.intercalate " " snippets),
             some (first.language ++ " (translated to English)"),
             some first.is_generated, none⟩
          | .error m => ⟨none, none, none, some ("No transcript available: " ++ m)⟩
        else
          ⟨none, none, none,
           some "No Hindi or English transcript found, and translation not available"⟩

/-! ## 5. Chunking and `VectorStoreManager.create_vector_store`
(src/vector_store.py, lines 158-192)

The text splitter (`RecursiveCharacterTextSplitter` of
`langchain_text_splitters`) is library code not contained in the
repository; `create_vector_store` only configures it with
`chunk_size`, `chunk_overlap`, `length_function=len` and separators
`["\n\n", "\n", " ", ""]`.  Its splitting policy is therefore modelled from
the spec. -/

/-- Modelled from the spec: the chunk-splitting policy of the text splitter
configured by `create_vector_store` (library code missing from `src/`).
Spec §3 "Chunk" / §4.3: a deterministic splitter producing ordered,
contiguous chunks of length at most `chunk_size`, consecutive chunks
overlapping by `chunk_overlap`, covering the whole text with no character
lost.  Here `step = chunk_size - chunk_overlap`: each chunk is the next
`size`-character window, windows advancing by `step`.  The `step = 0` guard
is unreachable under the spec's configuration constraint
`chunk_overlap < chunk_size`. -/
def chunkText (size step : Nat) (s : List Char) : List (List Char) :=
  if _h : s.length ≤ size ∨ step = 0 then [s]
  else s.take size :: chunkText size step (s.drop step)
termination_by s.length
decreasing_by
  simp only [List.length_drop]
  omega

/-- The unique non-overlapping span each chunk contributes: all but the last
chunk contribute their first `step` characters, the last chunk contributes
itself whole. -/
def uniqueSpans (step : Nat) : List (List Char) → List (List Char)
  | [] => []
  | [c] => [c]
  | c :: rest => c.take step :: uniqueSpans step rest

/-- The vector index: it owns its chunk set (spec §3 "VectorIndex"). -/
structure VectorStore where
  chunks : List (List Char)
deriving Repr, DecidableEq

/-- Embedding of `VectorStoreManager.create_vector_store`, returning the
tuple `(vector_store, num_chunks, error_message)`.  The embedding endpoint
call (`FAISS.from_documents`) is an oracle; its failure is caught by the
`except` clause and converted into the error tuple.  The
`chunk_overlap ≥ chunk_size` guard is modelled from the spec (§4.3:
"`chunk_overlap < chunk_size` must hold (else configuration error)"); the
splitter raising it is library code missing from `src/`, and the `except`
clause converts it into the same error-tuple shape. -/
def create_vector_store (embedOutcome : Except String Unit) (transcript : List Char)
    (chunk_size : Nat := 1000) (chunk_overlap : Nat := 200) :
    Option VectorStore × Nat × Option String :=
  if chunk_size ≤ chunk_overlap then
    (none, 0, some "Error creating vector store: chunk overlap must be smaller than chunk size")
  else
    let chunks := chunkText chunk_size (chunk_size - chunk_overlap) transcript
    match embedOutcome with
    | .ok _ => (some ⟨chunks⟩, chunks.length, none)
    | .error e => (none, 0, some ("Error creating vector store: " ++ e))

/-! ## 6. `get_api_token` and embedding initialisation
(src/vector_store.py lines 25-53, src/query_engine.py lines 22-29; the two
`get_api_token` definitions are textually identical). -/

/-- Outcome of the `st.secrets.get("HUGGINGFACEHUB_API_TOKEN")` access:
the stored value, `None` when the key is absent from the secrets store, or
an exception (e.g. no secrets file), caught by the bare `except`. -/
inductive SecretsAccess where
  | value (s : String)
  | missing
  | raises

/-- Embedding of `get_api_token`: when streamlit is importable the secrets
store is consulted first (its `None` for a missing key is returned as-is);
only an exception falls through to `os.getenv`. -/
def get_api_token (hasStreamlit : Bool) (secrets : SecretsAccess) (env : Option String) :
    Option String :=
  if hasStreamlit then
    match secrets with
    | .value s => some s
    | .missing => none
    | .raises => env
  else env

/-- Result of constructing the embedding-backed manager: the outcome and the
number of network calls issued during construction. -/
structure InitResult where
  outcome : Except String Unit
  network_calls : Nat
deriving Repr

/-- Modelled from the spec: the constructor of the embedding client
(`HuggingFaceEndpointEmbeddings`, library code missing from `src/`), as
invoked by `VectorStoreManager._initialize_embeddings` (and likewise the
generation client constructed by the query engine).  Spec §6
"Authentication token": absence of the credential "must fail fast with a
clear configuration error before any network call"; so a `None` token yields
an error with zero network calls, and the source's `except`/`raise` re-raises
it out of the constructor. -/
def initEmbeddings (token : Option String) : InitResult :=
  match token with
  | none => ⟨.error "Configuration error: HUGGINGFACEHUB_API_TOKEN is not set", 0⟩
  | some _ => ⟨.ok (), 1⟩

/-! ## 7. `QueryEngine` (src/query_engine.py) -/

/-- The mutable state of a `QueryEngine`: the vector store it was built on,
the field `self.k`, and the retriever's `search_kwargs["k"]` (both set to
`k` at construction). -/
structure QueryEngineState where
  vector_store : VectorStore
  k : Nat
  retriever_k : Nat
deriving Repr, DecidableEq

/-- Embedding of `QueryEngine.__init__`'s state initialisation (`self.k = k`
and `as_retriever(search_kwargs={"k": self.k})`). -/
def QueryEngine.init (vs : VectorStore) (k : Nat := 4) : QueryEngineState :=
  ⟨vs, k, k⟩

/-- Embedding of `QueryEngine.update_k`: sets `self.k` and the retriever's
`search_kwargs["k"]`, touching nothing else. -/
def update_k (e : QueryEngineState) (new_k : Nat) : QueryEngineState :=
  { e with k := new_k, retriever_k := new_k }

/-- The similarity ranking produced by the vector index for a question is an
oracle (it depends on the embedding service); the retriever returns the
first `retriever_k` of the ranked chunks. -/
def retrieve (e : QueryEngineState) (ranked : List (List Char)) : List (List Char) :=
  ranked.take e.retriever_k

/-- The result dictionary returned by `QueryEngine.query`. -/
structure QueryResult where
  success : Bool
  question : String
  answer : Option String
  sources : List String
  num_sources : Nat
  error : Option String
deriving Repr, DecidableEq

/-- Embedding of `QueryEngine.query`.  The two external invocations —
`self.rag_chain.invoke(question)` (generation) and
`self.retriever.invoke(question)` (retrieval), in this order — are oracles
that either return a value or raise; the `except` clause converts any raise
into the failure dictionary. -/
def query (rag : Except String String) (retr : Except String (List String))
    (question : String) : QueryResult :=
  match rag with
  | .error e =>
    ⟨false, question, none, [], 0, some ("Error processing query: " ++ e)⟩
  | .ok answer =>
    match retr with
    | .error e =>
      ⟨false, question, none, [], 0, some ("Error processing query: " ++ e)⟩
    | .ok sources =>
      ⟨true, question, some answer, sources, sources.length, none⟩

/-- Embedding of `QueryEngine.batch_query`: each question is processed
independently and sequentially by `query`; each question comes with the
oracle outcomes of its own two external invocations. -/
def batch_query (inputs : List (String × Except String String × Except String (List String))) :
    List QueryResult :=
  inputs.map (fun i => query i.2.1 i.2.2 i.1)

/-! ## 8. Predicates used to state the claims -/

/-- The YouTube video-id alphabet: ASCII letters, digits, `-` and `_`. -/
def isIdChar (c : Char) : Bool :=
  (48 ≤ c.toNat && c.toNat ≤ 57) || (65 ≤ c.toNat && c.toNat ≤ 90) ||
  (97 ≤ c.toNat && c.toNat ≤ 122) || c == '-' || c == '_'

/-- The input parses with a `youtu.be` netloc (branch 1 of
`extract_video_id`). -/
def isShortLinkShape (url : List Char) : Bool :=
  match urlparseE url with
  | .ok p => p.netloc.map Char.toLower == "youtu.be".data
  | .error _ => false

/-- The input parses with a path starting with `/shorts` (branch 2 of
`extract_video_id`). -/
def isShortsShape (url : List Char) : Bool :=
  match urlparseE url with
  | .ok p => listStartsWith "/shorts".data (p.path.map Char.toLower)
  | .error _ => false

/-- The input parses with a non-empty query carrying a `v` parameter
(branch 3 of `extract_video_id`). -/
def hasVParam (url : List Char) : Bool :=
  match urlparseE url with
  | .ok p => !p.query.isEmpty && (getV p.query).isSome
  | .error _ => false

/-- The input is an 11-character token without `/` (branch 4 of
`extract_video_id`). -/
def isBareToken (url : List Char) : Bool :=
  url.length == 11 && !url.contains '/'

/-- The invariant claimed of every result dictionary of `query`. -/
def sourcesInvariant (r : QueryResult) : Prop :=
  r.num_sources = r.sources.length ∧
  (r.success = true ∨ (r.sources = [] ∧ r.num_sources = 0 ∧ r.answer = none))

/-! ## 9. Helper lemmas -/

example :
    extract_video_id "https://www.youtube.com/watch?v=Gfr50f6ZBvo".data =
      some "Gfr50f6ZBvo".data := by decide
example :
    extract_video_id "https://youtu.be/Gfr50f6ZBvo".data =
      some "Gfr50f6ZBvo".data := by decide
example :
    extract_video_id "https://www.youtube.com/shorts/Gfr50f6ZBvo".data =
      some "Gfr50f6ZBvo".data := by decide
example : extract_video_id "Gfr50f6ZBvo".data = some "Gfr50f6ZBvo".data := by decide
example : extract_video_id "not a url".data = none := by decide

theorem prefixed_ne_empty (p m : String) (hp : p.length ≠ 0) : p ++ m ≠ "" := by
  intro h
  have h0 : (p ++ m).length = 0 := by rw [h]; rfl
  rw [String.length_append] at h0
  omega

theorem chunkText_ne_nil (size step : Nat) (s : List Char) :
    chunkText size step s ≠ [] := by
  rw [chunkText]
  split <;> simp

theorem uniqueSpans_cons (step : Nat) (c : List Char) (rest : List (List Char))
    (h : rest ≠ []) :
    uniqueSpans step (c :: rest) = c.take step :: uniqueSpans step rest := by
  cases rest with
  | nil => exact absurd rfl h
  | cons r rs => rfl

/-- Losslessness of the modelled chunking: the unique non-overlapping spans
of consecutive chunks concatenate back to the original text, whenever the
window advance `step` is positive and at most the window size. -/
theorem chunkText_flatten_spans (size step : Nat) (hstep : 0 < step)
    (hss : step ≤ size) (s : List Char) :
    (uniqueSpans step (chunkText size step s)).flatten = s := by
  rw [chunkText]
  split
  · simp [uniqueSpans]
  · rename_i h
    rw [uniqueSpans_cons step _ _ (chunkText_ne_nil size step (s.drop step))]
    rw [List.flatten_cons,
        chunkText_flatten_spans size step hstep hss (s.drop step),
        List.take_take, Nat.min_eq_left hss, List.take_append_drop]
termination_by s.length
decreasing_by
  simp only [List.length_drop]
  omega

/-- Every chunk produced by the modelled chunking has length at most the
window size (for a positive window advance). -/
theorem chunkText_length_le (size step : Nat) (hstep : 0 < step) (s : List Char) :
    ∀ c ∈ chunkText size step s, c.length ≤ size := by
  rw [chunkText]
  split
  · rename_i h
    intro c hc
    simp only [List.mem_singleton] at hc
    subst hc
    rcases h with h | h
    · exact h
    · omega
  · intro c hc
    simp only [List.mem_cons] at hc
    rcases hc with rfl | hc
    · simp only [List.length_take]
      omega
    · exact chunkText_length_le size step hstep (s.drop step) c hc
termination_by s.length
decreasing_by
  simp only [List.length_drop]
  omega

/-! ### Helper lemmas for the URL-shape claims -/

theorem isIdChar_gt32 (c : Char) (h : isIdChar c = true) : 32 < c.toNat := by
  simp only [isIdChar, Bool.or_eq_true, Bool.and_eq_true, decide_eq_true_eq,
    beq_iff_eq] at h
  rcases h with (((⟨h1, _⟩ | ⟨h1, _⟩) | ⟨h1, _⟩) | rfl) | rfl
  · omega
  · omega
  · omega
  · decide
  · decide

theorem not_mem_of_idChar {t : List Char} (hid : ∀ c ∈ t, isIdChar c = true)
    {d : Char} (hd : isIdChar d = false) : d ∉ t := by
  intro hmem
  rw [hid d hmem] at hd
  exact Bool.noConfusion hd

theorem contains_eq_false_of_not_mem {l : List Char} {a : Char} (h : a ∉ l) :
    l.contains a = false := by
  induction l with
  | nil => rfl
  | cons c cs ih =>
    simp only [List.mem_cons, not_or] at h
    rw [List.contains_cons, ih h.2, Bool.or_false]
    exact beq_eq_false_iff_ne.mpr h.1

theorem not_mem_append_chars {a : Char} {l₁ l₂ : List Char} (h₁ : a ∉ l₁)
    (h₂ : a ∉ l₂) : a ∉ l₁ ++ l₂ := by
  intro hmem
  rcases List.mem_append.mp hmem with h | h
  · exact h₁ h
  · exact h₂ h

theorem not_mem_cons_chars {a c : Char} {l : List Char} (h₁ : a ≠ c)
    (h₂ : a ∉ l) : a ∉ c :: l := by
  intro hmem
  rcases List.mem_cons.mp hmem with h | h
  · exact h₁ h
  · exact h₂ h

theorem splitFirst_of_not_mem (sep : Char) (l : List Char) (h : sep ∉ l) :
    splitFirst sep l = (l, none) := by
  induction l with
  | nil => rfl
  | cons c cs ih =>
    simp only [List.mem_cons, not_or] at h
    rw [splitFirst, if_neg (Ne.symm h.1), ih h.2]

theorem splitFirst_append_sep (sep : Char) (l₁ l₂ : List Char) (h : sep ∉ l₁) :
    splitFirst sep (l₁ ++ sep :: l₂) = (l₁, some l₂) := by
  induction l₁ with
  | nil => simp [splitFirst]
  | cons c cs ih =>
    simp only [List.mem_cons, not_or] at h
    rw [List.cons_append, splitFirst, if_neg (Ne.symm h.1), ih h.2]

theorem splitOffAt_of_not_mem (sep : Char) (l : List Char) (h : sep ∉ l) :
    splitOffAt sep l = (l, []) := by
  rw [splitOffAt, splitFirst_of_not_mem sep l h]

theorem splitOffAt_append_sep (sep : Char) (l₁ l₂ : List Char) (h : sep ∉ l₁) :
    splitOffAt sep (l₁ ++ sep :: l₂) = (l₁, l₂) := by
  rw [splitOffAt, splitFirst_append_sep sep l₁ l₂ h]

theorem pySplit_of_not_mem (sep : Char) (l : List Char) (h : sep ∉ l) :
    pySplit sep l = [l] := by
  induction l with
  | nil => rfl
  | cons c cs ih =>
    simp only [List.mem_cons, not_or] at h
    rw [pySplit, if_neg (Ne.symm h.1), ih h.2]

theorem pySplit_cons_sep (sep : Char) (l : List Char) :
    pySplit sep (sep :: l) = [] :: pySplit sep l := by
  rw [pySplit, if_pos rfl]

theorem pySplit_ne_nil (sep : Char) (l : List Char) : pySplit sep l ≠ [] := by
  induction l with
  | nil => simp [pySplit]
  | cons c cs ih =>
    rw [pySplit]
    split
    · simp
    · cases hp : pySplit sep cs with
      | nil => exact absurd hp ih
      | cons g gs => simp

theorem pySplit_sep_append (sep : Char) (l₁ l₂ : List Char) (h : sep ∉ l₁) :
    pySplit sep (l₁ ++ sep :: l₂) = l₁ :: pySplit sep l₂ := by
  induction l₁ with
  | nil => simp [pySplit_cons_sep]
  | cons c cs ih =>
    simp only [List.mem_cons, not_or] at h
    rw [List.cons_append, pySplit, if_neg (Ne.symm h.1), ih h.2]

theorem listStartsWith_self_append (p l : List Char) :
    listStartsWith p (p ++ l) = true := by
  induction p with
  | nil => rfl
  | cons c cs ih => simp [listStartsWith, ih]

theorem listStartsWith_cons_false {x y : Char} (xs ys : List Char) (h : x ≠ y) :
    listStartsWith (x :: xs) (y :: ys) = false := by
  simp [listStartsWith, h]

theorem plusToSpace_of_not_mem (l : List Char) (h : '+' ∉ l) :
    plusToSpace l = l := by
  induction l with
  | nil => rfl
  | cons c cs ih =>
    simp only [List.mem_cons, not_or] at h
    show (if c = '+' then ' ' else c) :: plusToSpace cs = c :: cs
    rw [if_neg (Ne.symm h.1), ih h.2]

theorem pctDecode_of_not_mem (l : List Char) (h : '%' ∉ l) :
    pctDecode l = l := by
  induction l with
  | nil => rfl
  | cons c cs ih =>
    simp only [List.mem_cons, not_or] at h
    rw [pctDecode.eq_def]
    split
    · rename_i heq
      exact absurd heq (by simp)
    · rename_i heq
      cases heq
      rw [if_neg (Ne.symm h.1), ih h.2]

theorem decodeComponent_of_clean (l : List Char) (hplus : '+' ∉ l)
    (hpct : '%' ∉ l) : decodeComponent l = l := by
  rw [decodeComponent, plusToSpace_of_not_mem l hplus, pctDecode_of_not_mem l hpct]

theorem preprocessUrl_eq_self (l : List Char) (h : ∀ c ∈ l, 32 < c.toNat) :
    preprocessUrl l = l := by
  rw [preprocessUrl, stripControlLeft]
  have hdw : l.dropWhile (fun c => c.toNat ≤ 32) = l := by
    cases l with
    | nil => rfl
    | cons c cs =>
      rw [List.dropWhile_cons, if_neg]
      simp only [decide_eq_true_eq, Nat.not_le]
      exact h c (List.mem_cons_self _ _)
  rw [hdw, removeUnsafeChars, List.filter_eq_self.mpr]
  intro c hc
  have h32 := h c hc
  have h1 : c ≠ '\t' := by rintro rfl; revert h32; decide
  have h2 : c ≠ '\r' := by rintro rfl; revert h32; decide
  have h3 : c ≠ '\n' := by rintro rfl; revert h32; decide
  simp [h1, h2, h3]

theorem splitScheme_found (s before after : List Char)
    (hsf : splitFirst ':' s = (before, some after))
    (hne : before ≠ []) (hal : (before.headD ' ').isAlpha = true)
    (hall : before.all isSchemeChar = true) :
    splitScheme s = (before.map Char.toLower, after) := by
  rw [splitScheme, hsf]
  exact if_pos ⟨hne, hal, hall⟩

theorem splitScheme_no_colon (s : List Char) (h : ':' ∉ s) :
    splitScheme s = ([], s) := by
  rw [splitScheme, splitFirst_of_not_mem ':' s h]

theorem splitNetloc_double_slash (r₁ r₂ : List Char) (x : Char)
    (h₁ : ∀ c ∈ r₁, isNetlocChar c = true) (hx : isNetlocChar x = false)
    (hbr : (r₁.contains '[') = (r₁.contains ']')) :
    splitNetloc ('/' :: '/' :: (r₁ ++ x :: r₂)) = .ok (r₁, x :: r₂) := by
  rw [splitNetloc]
  rw [if_pos ⟨rfl, rfl⟩]
  have htw : (r₁ ++ x :: r₂).takeWhile isNetlocChar = r₁ := by
    rw [List.takeWhile_append_of_pos h₁, List.takeWhile_cons, if_neg (by simp [hx])]
    simp
  have hdw : (r₁ ++ x :: r₂).dropWhile isNetlocChar = x :: r₂ := by
    rw [List.dropWhile_append_of_pos h₁, List.dropWhile_cons, if_neg (by simp [hx])]
  rw [htw, hdw, if_neg (fun hne => hne hbr)]

theorem splitNetloc_no_slash (s : List Char) (h : '/' ∉ s) :
    splitNetloc s = .ok ([], s) := by
  cases s with
  | nil => rfl
  | cons a s' =>
    cases s' with
    | nil => rfl
    | cons b r =>
      rw [splitNetloc, if_neg]
      rintro ⟨rfl, -⟩
      exact h (List.mem_cons_self _ _)

theorem splitParams_of_no_slash (p : List Char) (hs : '/' ∉ p) (hsemi : ';' ∉ p) :
    splitParams p = p := by
  rw [splitParams, if_neg (by simp [contains_eq_false_of_not_mem hs, hs])]
  rw [cutSemiColon, splitFirst_of_not_mem ';' p hsemi]

theorem splitParams_append_clean (l t : List Char) (hl : '/' ∈ l)
    (hrev : l.reverse = '/' :: (l.reverse.tail))
    (hs : '/' ∉ t) (hsemi : ';' ∉ t) :
    splitParams (l ++ t) = l ++ t := by
  rw [splitParams, if_pos]
  · have hseg : ((l ++ t).reverse.takeWhile (fun c => c ≠ '/')).reverse = t := by
      rw [List.reverse_append, List.takeWhile_append_of_pos, hrev,
        List.takeWhile_cons, if_neg (by simp), List.append_nil, List.reverse_reverse]
      intro c hc
      simp only [decide_eq_true_eq]
      exact fun he => hs (he ▸ List.mem_reverse.mp hc)
    rw [hseg]
    show List.take ((l ++ t).length - t.length) (l ++ t) ++ cutSemiColon t = l ++ t
    have hlen : (l ++ t).length - t.length = l.length := by
      rw [List.length_append]; omega
    rw [hlen, List.take_left, cutSemiColon, splitFirst_of_not_mem ';' t hsemi]
  · simp only [List.contains, List.elem_eq_mem, decide_eq_true_eq]
    exact List.mem_append_left t hl

theorem getV_v_value (t : List Char) (hamp : '&' ∉ t) (hplus : '+' ∉ t)
    (hpct : '%' ∉ t) (hne : t ≠ []) :
    getV ('v' :: '=' :: t) = some t := by
  have hnm : '&' ∉ 'v' :: '=' :: t :=
    not_mem_cons_chars (by decide) (not_mem_cons_chars (by decide) hamp)
  have hsf : splitFirst '=' ('v' :: '=' :: t) = (['v'], some t) := by
    rw [splitFirst, if_neg (by decide), splitFirst, if_pos rfl]
  have hqs : qsPairs ('v' :: '=' :: t) = [(['v'], t)] := by
    rw [qsPairs, pySplit_of_not_mem '&' _ hnm]
    simp only [List.filterMap]
    rw [hsf]
    simp only [List.isEmpty_cons, Bool.false_eq_true, if_false]
    have hte : t.isEmpty = false := by
      cases t with
      | nil => exact absurd rfl hne
      | cons c cs => rfl
    rw [if_neg (by simp [hte])]
    rw [decodeComponent_of_clean t hplus hpct]
    rfl
  rw [getV, hqs]
  simp

theorem toNat_ofNat_of_lt {n : Nat} (h : n < 55296) : (Char.ofNat n).toNat = n := by
  rw [Char.ofNat, dif_pos (Or.inl h)]
  rfl

theorem toLower_eq_slash_imp (c : Char) (h : Char.toLower c = '/') : c = '/' := by
  rw [Char.toLower] at h
  split at h
  · rename_i hu
    have h47 : (Char.ofNat (c.toNat + 32)).toNat = ('/' : Char).toNat := by rw [h]
    rw [toNat_ofNat_of_lt (by omega)] at h47
    have : ('/' : Char).toNat = 47 := rfl
    omega
  · exact h

/-! ### The four URL shapes, parsed symbolically in the token -/

theorem preprocessUrl_lit_append (lit t : List Char)
    (hlit : ∀ c ∈ lit, 32 < c.toNat) (hid : ∀ c ∈ t, isIdChar c = true) :
    preprocessUrl (lit ++ t) = lit ++ t := by
  apply preprocessUrl_eq_self
  intro c hc
  rcases List.mem_append.mp hc with h | h
  · exact hlit c h
  · exact isIdChar_gt32 c (hid c h)

theorem urlparse_watch_shape (t : List Char) (hid : ∀ c ∈ t, isIdChar c = true) :
    urlparseE ("https://www.youtube.com/watch?v=".data ++ t) =
      .ok ⟨"https".data, "www.youtube.com".data, "/watch".data, 'v' :: '=' :: t, []⟩ := by
  have hhash : '#' ∉ t := not_mem_of_idChar hid (by decide)
  have hpre := preprocessUrl_lit_append "https://www.youtube.com/watch?v=".data t
    (by decide) hid
  have hsplit1 : "https://www.youtube.com/watch?v=".data ++ t =
      "https".data ++ ':' :: ("//www.youtube.com/watch?v=".data ++ t) := rfl
  have hscheme : splitScheme ("https://www.youtube.com/watch?v=".data ++ t) =
      ("https".data, "//www.youtube.com/watch?v=".data ++ t) := by
    rw [hsplit1,
      splitScheme_found _ "https".data ("//www.youtube.com/watch?v=".data ++ t)
        (splitFirst_append_sep ':' _ _ (by decide)) (by decide) (by decide) (by decide),
      show "https".data.map Char.toLower = "https".data from by decide]
  have hsplit2 : "//www.youtube.com/watch?v=".data ++ t =
      '/' :: '/' :: ("www.youtube.com".data ++ '/' :: ("watch?v=".data ++ t)) := rfl
  have hnet : splitNetloc ("//www.youtube.com/watch?v=".data ++ t) =
      .ok ("www.youtube.com".data, '/' :: ("watch?v=".data ++ t)) := by
    rw [hsplit2]
    exact splitNetloc_double_slash "www.youtube.com".data ("watch?v=".data ++ t) '/'
      (by decide) (by decide) (by decide)
  have hfrag : splitOffAt '#' ('/' :: ("watch?v=".data ++ t)) =
      ('/' :: ("watch?v=".data ++ t), []) :=
    splitOffAt_of_not_mem '#' _
      (not_mem_cons_chars (by decide) (not_mem_append_chars (by decide) hhash))
  have hsplit3 : '/' :: ("watch?v=".data ++ t) =
      "/watch".data ++ '?' :: ('v' :: '=' :: t) := rfl
  have hquery : splitOffAt '?' ('/' :: ("watch?v=".data ++ t)) =
      ("/watch".data, 'v' :: '=' :: t) := by
    rw [hsplit3]
    exact splitOffAt_append_sep '?' _ _ (by decide)
  have hsp : splitParams "/watch".data = "/watch".data := by decide
  simp only [urlparseE, hpre, hscheme, hnet, hfrag, hquery, hsp]

theorem urlparse_shortlink_shape (t : List Char)
    (hid : ∀ c ∈ t, isIdChar c = true) :
    urlparseE ("https://youtu.be/".data ++ t) =
      .ok ⟨"https".data, "youtu.be".data, '/' :: t, [], []⟩ := by
  have hhash : '#' ∉ t := not_mem_of_idChar hid (by decide)
  have hques : '?' ∉ t := not_mem_of_idChar hid (by decide)
  have hslash : '/' ∉ t := not_mem_of_idChar hid (by decide)
  have hsemi : ';' ∉ t := not_mem_of_idChar hid (by decide)
  have hpre := preprocessUrl_lit_append "https://youtu.be/".data t (by decide) hid
  have hsplit1 : "https://youtu.be/".data ++ t =
      "https".data ++ ':' :: ("//youtu.be/".data ++ t) := rfl
  have hscheme : splitScheme ("https://youtu.be/".data ++ t) =
      ("https".data, "//youtu.be/".data ++ t) := by
    rw [hsplit1,
      splitScheme_found _ "https".data ("//youtu.be/".data ++ t)
        (splitFirst_append_sep ':' _ _ (by decide)) (by decide) (by decide) (by decide),
      show "https".data.map Char.toLower = "https".data from by decide]
  have hsplit2 : "//youtu.be/".data ++ t =
      '/' :: '/' :: ("youtu.be".data ++ '/' :: t) := rfl
  have hnet : splitNetloc ("//youtu.be/".data ++ t) =
      .ok ("youtu.be".data, '/' :: t) := by
    rw [hsplit2]
    exact splitNetloc_double_slash "youtu.be".data t '/'
      (by decide) (by decide) (by decide)
  have hfrag : splitOffAt '#' ('/' :: t) = ('/' :: t, []) :=
    splitOffAt_of_not_mem '#' _ (not_mem_cons_chars (by decide) hhash)
  have hquery : splitOffAt '?' ('/' :: t) = ('/' :: t, []) :=
    splitOffAt_of_not_mem '?' _ (not_mem_cons_chars (by decide) hques)
  have hpath : splitParams ('/' :: t) = '/' :: t := by
    have h := splitParams_append_clean ['/'] t (by decide) (by decide) hslash hsemi
    simpa using h
  simp only [urlparseE, hpre, hscheme, hnet, hfrag, hquery, hpath]

theorem urlparse_shorts_shape (t : List Char)
    (hid : ∀ c ∈ t, isIdChar c = true) :
    urlparseE ("https://www.youtube.com/shorts/".data ++ t) =
      .ok ⟨"https".data, "www.youtube.com".data, "/shorts/".data ++ t, [], []⟩ := by
  have hhash : '#' ∉ t := not_mem_of_idChar hid (by decide)
  have hques : '?' ∉ t := not_mem_of_idChar hid (by decide)
  have hslash : '/' ∉ t := not_mem_of_idChar hid (by decide)
  have hsemi : ';' ∉ t := not_mem_of_idChar hid (by decide)
  have hpre := preprocessUrl_lit_append "https://www.youtube.com/shorts/".data t
    (by decide) hid
  have hsplit1 : "https://www.youtube.com/shorts/".data ++ t =
      "https".data ++ ':' :: ("//www.youtube.com/shorts/".data ++ t) := rfl
  have hscheme : splitScheme ("https://www.youtube.com/shorts/".data ++ t) =
      ("https".data, "//www.youtube.com/shorts/".data ++ t) := by
    rw [hsplit1,
      splitScheme_found _ "https".data ("//www.youtube.com/shorts/".data ++ t)
        (splitFirst_append_sep ':' _ _ (by decide)) (by decide) (by decide) (by decide),
      show "https".data.map Char.toLower = "https".data from by decide]
  have hsplit2 : "//www.youtube.com/shorts/".data ++ t =
      '/' :: '/' :: ("www.youtube.com".data ++ '/' :: ("shorts/".data ++ t)) := rfl
  have hnet : splitNetloc ("//www.youtube.com/shorts/".data ++ t) =
      .ok ("www.youtube.com".data, '/' :: ("shorts/".data ++ t)) := by
    rw [hsplit2]
    exact splitNetloc_double_slash "www.youtube.com".data ("shorts/".data ++ t) '/'
      (by decide) (by decide) (by decide)
  have hfrag : splitOffAt '#' ('/' :: ("shorts/".data ++ t)) =
      ('/' :: ("shorts/".data ++ t), []) :=
    splitOffAt_of_not_mem '#' _
      (not_mem_cons_chars (by decide) (not_mem_append_chars (by decide) hhash))
  have hquery : splitOffAt '?' ('/' :: ("shorts/".data ++ t)) =
      ('/' :: ("shorts/".data ++ t), []) :=
    splitOffAt_of_not_mem '?' _
      (not_mem_cons_chars (by decide) (not_mem_append_chars (by decide) hques))
  have hcons : '/' :: ("shorts/".data ++ t) = "/shorts/".data ++ t := rfl
  have hpath : splitParams ('/' :: ("shorts/".data ++ t)) = "/shorts/".data ++ t := by
    rw [hcons]
    exact splitParams_append_clean "/shorts/".data t (by decide) (by decide)
      hslash hsemi
  simp only [urlparseE, hpre, hscheme, hnet, hfrag, hquery, hpath]

theorem urlparse_bare_shape (t : List Char)
    (hid : ∀ c ∈ t, isIdChar c = true) :
    urlparseE t = .ok ⟨[], [], t, [], []⟩ := by
  have hcolon : ':' ∉ t := not_mem_of_idChar hid (by decide)
  have hhash : '#' ∉ t := not_mem_of_idChar hid (by decide)
  have hques : '?' ∉ t := not_mem_of_idChar hid (by decide)
  have hslash : '/' ∉ t := not_mem_of_idChar hid (by decide)
  have hsemi : ';' ∉ t := not_mem_of_idChar hid (by decide)
  have hpre : preprocessUrl t = t :=
    preprocessUrl_eq_self t (fun c hc => isIdChar_gt32 c (hid c hc))
  have hscheme : splitScheme t = ([], t) := splitScheme_no_colon t hcolon
  have hnet : splitNetloc t = .ok ([], t) := splitNetloc_no_slash t hslash
  have hfrag : splitOffAt '#' t = (t, []) := splitOffAt_of_not_mem '#' t hhash
  have hquery : splitOffAt '?' t = (t, []) := splitOffAt_of_not_mem '?' t hques
  have hpath : splitParams t = t := splitParams_of_no_slash t hslash hsemi
  simp only [urlparseE, hpre, hscheme, hnet, hfrag, hquery, hpath]

theorem extract_watch_shape (t : List Char) (hlen : t.length = 11)
    (hid : ∀ c ∈ t, isIdChar c = true) :
    extract_video_id ("https://www.youtube.com/watch?v=".data ++ t) = some t := by
  have hamp : '&' ∉ t := not_mem_of_idChar hid (by decide)
  have hplus : '+' ∉ t := not_mem_of_idChar hid (by decide)
  have hpct : '%' ∉ t := not_mem_of_idChar hid (by decide)
  have hne : t ≠ [] := by
    intro he
    rw [he] at hlen
    exact absurd hlen (by decide)
  simp only [extract_video_id, urlparse_watch_shape t hid]
  rw [if_neg (show ¬("www.youtube.com".data.map Char.toLower = "youtu.be".data)
      from by decide),
    if_neg (show ¬(listStartsWith "/shorts".data ("/watch".data.map Char.toLower) = true)
      from by decide),
    if_neg (show ¬(('v' :: '=' :: t).isEmpty = true) from by simp),
    getV_v_value t hamp hplus hpct hne]

theorem extract_shortlink_shape (t : List Char)
    (hid : ∀ c ∈ t, isIdChar c = true) :
    extract_video_id ("https://youtu.be/".data ++ t) = some t := by
  have hslash : '/' ∉ t := not_mem_of_idChar hid (by decide)
  simp only [extract_video_id, urlparse_shortlink_shape t hid]
  rw [if_pos (show "youtu.be".data.map Char.toLower = "youtu.be".data from by decide),
    pySplit_cons_sep, pySplit_of_not_mem '/' t hslash]
  simp [lastSegment]

theorem extract_shorts_shape (t : List Char)
    (hid : ∀ c ∈ t, isIdChar c = true) :
    extract_video_id ("https://www.youtube.com/shorts/".data ++ t) = some t := by
  have hslash : '/' ∉ t := not_mem_of_idChar hid (by decide)
  simp only [extract_video_id, urlparse_shorts_shape t hid]
  have hstart : listStartsWith "/shorts".data
      (("/shorts/".data ++ t).map Char.toLower) = true := by
    rw [List.map_append,
      show "/shorts/".data.map Char.toLower = "/shorts".data ++ ['/'] from by decide,
      List.append_assoc]
    exact listStartsWith_self_append "/shorts".data (['/'] ++ t.map Char.toLower)
  rw [if_neg (show ¬("www.youtube.com".data.map Char.toLower = "youtu.be".data)
      from by decide),
    if_pos hstart,
    show "/shorts/".data ++ t = '/' :: ("shorts".data ++ '/' :: t) from rfl,
    pySplit_cons_sep, pySplit_sep_append '/' "shorts".data t (by decide),
    pySplit_of_not_mem '/' t hslash]
  simp [lastSegment]

theorem extract_bare_shape (t : List Char) (hlen : t.length = 11)
    (hid : ∀ c ∈ t, isIdChar c = true) :
    extract_video_id t = some t := by
  have hslash : '/' ∉ t := not_mem_of_idChar hid (by decide)
  simp only [extract_video_id, urlparse_bare_shape t hid]
  have hstart : listStartsWith "/shorts".data (t.map Char.toLower) = false := by
    cases t with
    | nil => exact absurd hlen (by decide)
    | cons c cs =>
      rw [List.map_cons, show "/shorts".data = '/' :: "shorts".data from rfl]
      apply listStartsWith_cons_false
      intro he
      have hceq : c = '/' := toLower_eq_slash_imp c he.symm
      subst hceq
      exact absurd (hid '/' (List.mem_cons_self _ _)) (by decide)
  rw [if_neg (show ¬(([] : List Char).map Char.toLower = "youtu.be".data)
      from by decide),
    if_neg (by simp [hstart])]
  simp only [List.isEmpty_nil, if_true]
  rw [if_pos ⟨hlen, contains_eq_false_of_not_mem hslash⟩]

/-! ## 10. The claims -/

/-- C1: For every question string, `QueryEngine.query` returns a
result-shaped dictionary with a boolean `success` flag and never raises past
its boundary (the embedding is a total function of the question and the two
external-call outcomes): on success the answer is non-null and `sources` is
exactly the retrieved chunk-text list; on any failure of generation or
retrieval it returns `success = false` with a non-empty `error` string. -/
theorem C1_query_result_shape (question : String) (rag : Except String String)
    (retr : Except String (List String)) :
    ((query rag retr question).success = true ∧
      (query rag retr question).error = none ∧
      (∃ a, (query rag retr question).answer = some a) ∧
      (∃ ds, retr = Except.ok ds ∧ (query rag retr question).sources = ds)) ∨
    ((query rag retr question).success = false ∧
      (query rag retr question).answer = none ∧
      (∃ e, (query rag retr question).error = some e ∧ e ≠ "") ∧
      ((∃ m, rag = Except.error m) ∨ (∃ m, retr = Except.error m))) := by
  cases rag with
  | error m =>
    exact Or.inr ⟨rfl, rfl, ⟨_, rfl, prefixed_ne_empty _ m (by decide)⟩,
      Or.inl ⟨m, rfl⟩⟩
  | ok a =>
    cases retr with
    | error m =>
      exact Or.inr ⟨rfl, rfl, ⟨_, rfl, prefixed_ne_empty _ m (by decide)⟩,
        Or.inr ⟨m, rfl⟩⟩
    | ok ds => exact Or.inl ⟨rfl, rfl, ⟨a, rfl⟩, ⟨ds, rfl, rfl⟩⟩

/-- C2: chunking with `chunk_size = 1000` and `chunk_overlap = 200`
(window advance `1000 - 200 = 800`, the configuration used by
`create_vector_store`'s defaults) is lossless — concatenating the unique
non-overlapping spans of consecutive chunks recovers the text exactly — and
every chunk's length is at most `chunk_size`; moreover these are exactly the
chunks `create_vector_store` indexes at its default configuration. -/
theorem C2_chunking_lossless (s : List Char) :
    (uniqueSpans 800 (chunkText 1000 800 s)).flatten = s ∧
    (∀ c ∈ chunkText 1000 800 s, c.length ≤ 1000) ∧
    (create_vector_store (Except.ok ()) s).1 = some ⟨chunkText 1000 800 s⟩ :=
  ⟨chunkText_flatten_spans 1000 800 (by decide) (by decide) s,
   chunkText_length_le 1000 800 (by decide) s,
   rfl⟩

/-- Closed instance of `C2_chunking_lossless` at a concrete transcript. -/
theorem C2_chunking_lossless_witness :
    (uniqueSpans 800 (chunkText 1000 800 "hello world".data)).flatten =
      "hello world".data ∧
    (∀ c ∈ chunkText 1000 800 "hello world".data, c.length ≤ 1000) ∧
    (create_vector_store (Except.ok ()) "hello world".data).1 =
      some ⟨chunkText 1000 800 "hello world".data⟩ :=
  C2_chunking_lossless "hello world".data

/-- C5: `fetch_transcript` converts transcript-source failures into error
results rather than raising, and the captions-disabled message differs from
the no-transcript/not-translatable message. -/
theorem C5_distinct_error_messages (listing : ListOutcome)
    (ts : List TranscriptInfo) (hl : listing = ListOutcome.ok ts)
    (hnt : ∀ t ∈ ts, t.is_translatable = false) :
    (fetch_transcript FetchOutcome.transcriptsDisabled listing).error =
      some "Transcripts are disabled for this video" ∧
    (fetch_transcript FetchOutcome.noTranscriptFound listing).error =
      some "No Hindi or English transcript found, and translation not available" ∧
    ("Transcripts are disabled for this video" : String) ≠
      "No Hindi or English transcript found, and translation not available" := by
  subst hl
  refine ⟨rfl, ?_, by decide⟩
  cases ts with
  | nil => rfl
  | cons first rest =>
    have hf : first.is_translatable = false := hnt first (List.mem_cons_self _ _)
    simp [fetch_transcript, hf]

/-- Closed instance of `C5_distinct_error_messages` with no available
transcript. -/
theorem C5_distinct_error_messages_witness :
    (fetch_transcript FetchOutcome.transcriptsDisabled (ListOutcome.ok [])).error =
      some "Transcripts are disabled for this video" ∧
    (fetch_transcript FetchOutcome.noTranscriptFound (ListOutcome.ok [])).error =
      some "No Hindi or English transcript found, and translation not available" ∧
    ("Transcripts are disabled for this video" : String) ≠
      "No Hindi or English transcript found, and translation not available" :=
  C5_distinct_error_messages (ListOutcome.ok []) [] rfl (by simp)

/-- C6: `create_vector_store` with `chunk_overlap ≥ chunk_size` yields a
configuration-error result — a non-null error message and no vector store —
never a successfully built index. -/
theorem C6_overlap_config_error (embedOutcome : Except String Unit)
    (transcript : List Char) (chunk_size chunk_overlap : Nat)
    (h : chunk_size ≤ chunk_overlap) :
    (create_vector_store embedOutcome transcript chunk_size chunk_overlap).1 = none ∧
    ∃ e, (create_vector_store embedOutcome transcript chunk_size chunk_overlap).2.2 =
      some e := by
  simp [create_vector_store, h]

/-- Closed instance of `C6_overlap_config_error` at
`chunk_size = chunk_overlap = 5`. -/
theorem C6_overlap_config_error_witness :
    (create_vector_store (Except.ok ()) "abc".data 5 5).1 = none ∧
    ∃ e, (create_vector_store (Except.ok ()) "abc".data 5 5).2.2 = some e :=
  C6_overlap_config_error (Except.ok ()) "abc".data 5 5 (by decide)

/-- C7: when the token is absent from both the secret store and the
environment, `get_api_token` yields `None` and construction of the
embedding-backed client fails with a configuration error before any network
call. -/
theorem C7_missing_token_fails_fast (hasStreamlit : Bool)
    (secrets : SecretsAccess) (env : Option String)
    (hsec : secrets = SecretsAccess.missing ∨ secrets = SecretsAccess.raises)
    (henv : env = none) :
    get_api_token hasStreamlit secrets env = none ∧
    ∃ e, (initEmbeddings (get_api_token hasStreamlit secrets env)).outcome =
        Except.error e ∧
      (initEmbeddings (get_api_token hasStreamlit secrets env)).network_calls = 0 := by
  subst henv
  have htok : get_api_token hasStreamlit secrets none = none := by
    rcases hsec with h | h <;> subst h <;> cases hasStreamlit <;> rfl
  rw [htok]
  exact ⟨rfl, _, rfl, rfl⟩

/-- Closed instance of `C7_missing_token_fails_fast`: streamlit present,
key absent from the secrets store, environment variable unset. -/
theorem C7_missing_token_fails_fast_witness :
    get_api_token true SecretsAccess.missing none = none ∧
    ∃ e, (initEmbeddings (get_api_token true SecretsAccess.missing none)).outcome =
        Except.error e ∧
      (initEmbeddings (get_api_token true SecretsAccess.missing none)).network_calls = 0 :=
  C7_missing_token_fails_fast true SecretsAccess.missing none (Or.inl rfl) rfl

/-- C8: `update_k` changes only the retrieval width used by subsequent
queries: afterwards the retriever's `k` (and the engine's `k`) equal
`new_k`, while the vector store and its chunk set are unchanged — the very
same store object, not a rebuilt one — and subsequent retrievals take the
first `new_k` ranked chunks. -/
theorem C8_update_k_frame (e : QueryEngineState) (new_k : Nat) :
    (update_k e new_k).retriever_k = new_k ∧
    (update_k e new_k).k = new_k ∧
    (update_k e new_k).vector_store = e.vector_store ∧
    (update_k e new_k).vector_store.chunks = e.vector_store.chunks ∧
    ∀ ranked, retrieve (update_k e new_k) ranked = ranked.take new_k :=
  ⟨rfl, rfl, rfl, rfl, fun _ => rfl⟩

/-- C9: every result of `query` — and hence every element of a
`batch_query` result list — satisfies `num_sources = sources.length`, and on
failure has empty `sources`, zero `num_sources` and a null `answer`. -/
theorem C9_result_invariant :
    (∀ (question : String) (rag : Except String String)
      (retr : Except String (List String)), sourcesInvariant (query rag retr question)) ∧
    (∀ inputs, ∀ r ∈ batch_query inputs, sourcesInvariant r) := by
  have hq : ∀ (question : String) (rag : Except String String)
      (retr : Except String (List String)), sourcesInvariant (query rag retr question) := by
    intro q rag retr
    cases rag with
    | error m => exact ⟨rfl, Or.inr ⟨rfl, rfl, rfl⟩⟩
    | ok a =>
      cases retr with
      | error m => exact ⟨rfl, Or.inr ⟨rfl, rfl, rfl⟩⟩
      | ok ds => exact ⟨rfl, Or.inl rfl⟩
  refine ⟨hq, ?_⟩
  intro inputs r hr
  rw [batch_query, List.mem_map] at hr
  obtain ⟨i, _, hi⟩ := hr
  rw [← hi]
  exact hq i.1 i.2.1 i.2.2

/-- Closed instance of `C9_result_invariant` through `batch_query` on a
two-question batch (one success, one failure). -/
theorem C9_result_invariant_witness :
    sourcesInvariant (query (Except.ok "ans") (Except.ok ["s1", "s2"]) "q1") ∧
    sourcesInvariant (query (Except.error "boom") (Except.ok []) "q2") :=
  ⟨C9_result_invariant.2
      [("q1", Except.ok "ans", Except.ok ["s1", "s2"]),
       ("q2", Except.error "boom", Except.ok [])]
      (query (Except.ok "ans") (Except.ok ["s1", "s2"]) "q1")
      (by simp [batch_query]),
   C9_result_invariant.1 "q2" (Except.error "boom") (Except.ok [])⟩

/-- C10: `fetch_transcript` returns its 4-tuple in exactly one of two
mutually exclusive shapes: error null with a string text (success), or a
non-empty error with text, language and is_generated all null (failure). -/
theorem C10_fetch_result_shape (primary : FetchOutcome) (listing : ListOutcome) :
    ((fetch_transcript primary listing).error = none ∧
      ∃ t, (fetch_transcript primary listing).text = some t) ∨
    (∃ e, (fetch_transcript primary listing).error = some e ∧ e ≠ "" ∧
      (fetch_transcript primary listing).text = none ∧
      (fetch_transcript primary listing).language = none ∧
      (fetch_transcript primary listing).is_generated = none) := by
  cases primary with
  | fetched snippets lang gen => exact Or.inl ⟨rfl, _, rfl⟩
  | transcriptsDisabled => exact Or.inr ⟨_, rfl, by decide, rfl, rfl, rfl⟩
  | otherError m =>
    exact Or.inr ⟨_, rfl, prefixed_ne_empty "Error: " m (by decide), rfl, rfl, rfl⟩
  | noTranscriptFound =>
    cases listing with
    | raises m =>
      exact Or.inr ⟨_, rfl,
        prefixed_ne_empty "No transcript available: " m (by decide), rfl, rfl, rfl⟩
    | ok ts =>
      cases ts with
      | nil => exact Or.inr ⟨_, rfl, by decide, rfl, rfl, rfl⟩
      | cons first rest =>
        by_cases hf : first.is_translatable
        · cases htr : first.translatedFetch with
          | ok snippets =>
            refine Or.inl ⟨?_, String.intercalate " " snippets, ?_⟩ <;>
              simp [fetch_transcript, hf, htr]
          | error m =>
            refine Or.inr ⟨"No transcript available: " ++ m, ?_,
              prefixed_ne_empty "No transcript available: " m (by decide),
              ?_, ?_, ?_⟩ <;> simp [fetch_transcript, hf, htr]
        · have hf' : first.is_translatable = false := by
            simpa using hf
          refine Or.inr
            ⟨"No Hindi or English transcript found, and translation not available",
             ?_, by decide, ?_, ?_, ?_⟩ <;> simp [fetch_transcript, hf']

/-- C3, counterexample: the claim quantifies over every 11-character token
without `/`, but for `t = "aaaaa?aaaaa"` (11 characters, no `/`) the
short-link URL `https://youtu.be/aaaaa?aaaaa` parses with path `/aaaaa` and
query `aaaaa`, so `extract_video_id` returns `"aaaaa"`, not `t`: the four
shapes do not all yield `t`. -/
theorem C3_counterexample_question_mark_token :
    "aaaaa?aaaaa".data.length = 11 ∧
    "aaaaa?aaaaa".data.contains '/' = false ∧
    extract_video_id ("https://youtu.be/".data ++ "aaaaa?aaaaa".data) =
      some "aaaaa".data ∧
    extract_video_id ("https://youtu.be/".data ++ "aaaaa?aaaaa".data) ≠
      some "aaaaa?aaaaa".data := by decide

/-- C3, amended: for every 11-character token over the YouTube video-id
alphabet (ASCII letters, digits, `-`, `_` — in particular no `/`),
`extract_video_id` yields the identical identifier `t` on all four URL
shapes denoting the same video: the canonical watch URL, the short-link
URL, the shorts-path URL, and the bare token itself. -/
theorem C3_amended_four_shapes (t : List Char) (hlen : t.length = 11)
    (hid : ∀ c ∈ t, isIdChar c = true) :
    extract_video_id ("https://www.youtube.com/watch?v=".data ++ t) = some t ∧
    extract_video_id ("https://youtu.be/".data ++ t) = some t ∧
    extract_video_id ("https://www.youtube.com/shorts/".data ++ t) = some t ∧
    extract_video_id t = some t :=
  ⟨extract_watch_shape t hlen hid, extract_shortlink_shape t hid,
   extract_shorts_shape t hid, extract_bare_shape t hlen hid⟩

/-- Closed instance of `C3_amended_four_shapes` at the identifier
`Gfr50f6ZBvo` of the spec's end-to-end scenario. -/
theorem C3_amended_four_shapes_witness :
    extract_video_id ("https://www.youtube.com/watch?v=".data ++ "Gfr50f6ZBvo".data) =
      some "Gfr50f6ZBvo".data ∧
    extract_video_id ("https://youtu.be/".data ++ "Gfr50f6ZBvo".data) =
      some "Gfr50f6ZBvo".data ∧
    extract_video_id ("https://www.youtube.com/shorts/".data ++ "Gfr50f6ZBvo".data) =
      some "Gfr50f6ZBvo".data ∧
    extract_video_id "Gfr50f6ZBvo".data = some "Gfr50f6ZBvo".data :=
  C3_amended_four_shapes "Gfr50f6ZBvo".data (by decide) (by decide)

/-- C4: `extract_video_id` is total pure string parsing — the embedding is a
total function, and the source wraps the parse in `try/except`, returning
`None` on any exception — and on every input matching none of the four
recognized shapes (short-link host, shorts path, `v` query parameter, bare
11-character `/`-free token) it returns `None`. -/
theorem C4_malformed_returns_none (url : List Char)
    (h1 : isShortLinkShape url = false) (h2 : isShortsShape url = false)
    (h3 : hasVParam url = false) (h4 : isBareToken url = false) :
    extract_video_id url = none := by
  rw [extract_video_id]
  cases hu : urlparseE url with
  | error e => rfl
  | ok p =>
    have h1' : ¬(p.netloc.map Char.toLower = "youtu.be".data) := by
      rw [isShortLinkShape, hu] at h1
      simpa using h1
    have h2' : listStartsWith "/shorts".data (p.path.map Char.toLower) = false := by
      rw [isShortsShape, hu] at h2
      simpa using h2
    have h3' : (!p.query.isEmpty && (getV p.query).isSome) = false := by
      rw [hasVParam, hu] at h3
      simpa using h3
    have h4' : ¬(url.length = 11 ∧ url.contains '/' = false) := by
      intro hc
      rw [isBareToken, hc.1, hc.2] at h4
      exact absurd h4 (by decide)
    have hq : (if p.query.isEmpty = true then none else getV p.query) =
        (none : Option (List Char)) := by
      cases hb : p.query.isEmpty with
      | true => rfl
      | false =>
        rw [hb] at h3'
        have hsome : (getV p.query).isSome = false := by simpa using h3'
        rw [if_neg (by simp)]
        cases hgv : getV p.query with
        | none => rfl
        | some v =>
          rw [hgv] at hsome
          exact absurd hsome (by simp)
    simp only [if_neg h1', h2', Bool.false_eq_true, if_false, hq, if_neg h4']

/-- Closed instance of `C4_malformed_returns_none` at the spec's malformed
example input `"not a url"`. -/
theorem C4_malformed_returns_none_witness :
    extract_video_id "not a url".data = none :=
  C4_malformed_returns_none "not a url".data (by decide) (by decide) (by decide)
    (by decide)

end YoutubeRag
